import Mathlib

/-!
Verification of the DictORM repository: a shallow embedding of the
query-builder modules (dictorm/pg.py, dictorm/query.py, dictorm/sqlite.py),
the core engine (dictorm/dictorm.py) and the legacy prototype
(pgpydict/pgpydict.py), together with theorems settling the frozen claims
about the natural-language specification.

Conventions:
* Python dictionaries that carry row data are modelled as association lists
  `List (String × Value)` with Python dict semantics (updating an existing
  key keeps its position, a new key is appended at the end).
* Machine-level SQL execution is abstracted as environments supplying the
  row lists a query would return; the engine code that builds queries,
  caches rows and raises errors is translated statement by statement.
* Python exceptions are modelled with an explicit `Err` type.
-/

set_option maxHeartbeats 1000000
set_option maxRecDepth 4000

/-- Python runtime values as far as DictORM manipulates them: None, ints,
strings, a row/dict value (used for cached references and PgPyDict values)
and a list value (used for substratum projections of many-references). -/
inductive Value where
  | vNull : Value
  | vInt : Int → Value
  | vStr : String → Value
  | vRow : List (String × Value) → Value
  | vList : List Value → Value

/-- A database row as fetched by a cursor: ordered column/value pairs. -/
abbrev Row := List (String × Value)

/-- Python truthiness for the modelled values (`not val` in the source). -/
def Value.falsy : Value → Bool
  | .vNull => true
  | .vInt n => n = 0
  | .vStr s => s = ""
  | .vRow fields => fields.isEmpty
  | .vList l => l.isEmpty

/-- The exceptions raised by the modelled code (dictorm.py defines
NoPrimaryKey, UnexpectedRows, NoCache and CannotUpdateColumn; KeyError and
IndexError come from the Python runtime). -/
inductive Err where
  | noPrimaryKey : Err
  | unexpectedRows : Err
  | noCache : Err
  | cannotUpdateColumn : Err
  | keyError : Err
  | indexError : Err
  deriving Repr, DecidableEq

/-- Python dict store: update an existing key in place, else append. -/
def setEntry (k : String) (v : Value) : Row → Row
  | [] => [(k, v)]
  | (k2, v2) :: rest => if k2 = k then (k, v) :: rest else (k2, v2) :: setEntry k v rest

/-- Merge `src` into `dst` with Python `dict.update` semantics
(`super().__init__(d)` on an existing dict behaves the same way). -/
def mergeRow (dst src : Row) : Row := src.foldl (fun acc p => setEntry p.1 p.2 acc) dst

namespace Pg

/-! ## dictorm/pg.py — the PostgreSQL query builder as present in src.

`Comparison.__str__` (pg.py lines 217-221) renders only the column name,
never the table name: `'"{0}"{1}{2}'.format(c1, self.kind,
self.interpolation_str)` where `c1 = self.column1.column`. -/

/-- pg.py `Comparison`: `column1` is a `Column` carrying its table's name and
a column name; `column2` is either a literal bind value or the `Null`
sentinel (`value = none` models `isinstance(self.column2, Null)`).
References (where `column2` is another `Column`) are modelled separately in
the engine section. -/
structure Comparison where
  tbl : String
  col : String
  kind : String
  value : Option Value

/-- pg.py `Comparison.__str__`: `"column"<kind>%s`, or `"column"<kind>` for
the null-test kinds.  The table name is not rendered. -/
def Comparison.render (c : Comparison) : String :=
  match c.value with
  | none => "\"" ++ c.col ++ "\"" ++ c.kind
  | some _ => "\"" ++ c.col ++ "\"" ++ c.kind ++ "%s"

/-- pg.py `Comparison.__iter__`: no bind value for a null test, otherwise
exactly the literal value. -/
def Comparison.binds (c : Comparison) : List Value :=
  match c.value with
  | none => []
  | some v => [v]

/-- An operators-or-comparison tree: a `Comparison` leaf or an `Operator`
(kind `AND`/`OR`/`XOR`) with its children tuple. -/
inductive Ooc where
  | comp : Comparison → Ooc
  | oper : String → List Ooc → Ooc

mutual

/-- pg.py `wrap_ooc`: a nested `Operator` is parenthesized, a
`Comparison` is rendered bare. -/
def Ooc.wrapRender : Ooc → String
  | .comp c => c.render
  | .oper k cs => "(" ++ String.intercalate (" " ++ k ++ " ") (Ooc.renderList cs) ++ ")"

/-- Render each child of an `Operator` via `wrap_ooc`. -/
def Ooc.renderList : List Ooc → List String
  | [] => []
  | o :: rest => o.wrapRender :: Ooc.renderList rest

end

/-- pg.py `Operator.__str__` / `Comparison.__str__` at the top level of a
WHERE clause (the top-level node is not parenthesized). -/
def Ooc.render : Ooc → String
  | .comp c => c.render
  | .oper k cs => String.intercalate (" " ++ k ++ " ") (Ooc.renderList cs)

mutual

/-- pg.py `Operator.__iter__`: depth-first bind values of all
non-null-test comparison leaves. -/
def Ooc.binds : Ooc → List Value
  | .comp c => c.binds
  | .oper _ cs => Ooc.bindsList cs

/-- Bind values contributed by a children tuple. -/
def Ooc.bindsList : List Ooc → List Value
  | [] => []
  | o :: rest => o.binds ++ Ooc.bindsList rest

end

/-- pg.py `Select`: `operators_or_comp` defaults to the empty list; `none`
here models that empty-list default, `some o` a `Comparison`/`Operator`. -/
structure Select where
  table : String
  ooc : Option Ooc := none
  returningSpec : Option String := none
  ordBy : Option String := none
  lim : Option String := none
  off : Option String := none

/-- The guard of the WHERE clause in pg.py `Select.__str__`:
`(isinstance(ooc, Operator) and ooc.operators_or_comp) or isinstance(ooc,
Comparison)`. -/
def Select.whereGuard (s : Select) : Bool :=
  match s.ooc with
  | none => false
  | some (.comp _) => true
  | some (.oper _ cs) => !cs.isEmpty

/-- Render the ` RETURNING ...` suffix shared by pg.py `Select.__str__` and
`Update.__str__`: `RETURNING *` for `'*'`, else `RETURNING "col"`. -/
def returningSuffix : Option String → String
  | none => ""
  | some r => if r = "*" then " RETURNING *" else " RETURNING \"" ++ r ++ "\""

/-- pg.py `Select.__str__`: `SELECT * FROM "table"` then WHERE, ORDER BY,
RETURNING, LIMIT, OFFSET in that order (each only when set and truthy). -/
def Select.render (s : Select) : String :=
  "SELECT * FROM \"" ++ s.table ++ "\""
    ++ (if s.whereGuard then " WHERE " ++ (s.ooc.map Ooc.render).getD "" else "")
    ++ (match s.ordBy with
        | some o => if o = "" then "" else " ORDER BY " ++ o
        | none => "")
    ++ returningSuffix s.returningSpec
    ++ (match s.lim with
        | some l => if l = "" then "" else " LIMIT " ++ l
        | none => "")
    ++ (match s.off with
        | some o => if o = "" then "" else " OFFSET " ++ o
        | none => "")

/-- pg.py `Select.values`: `list(self.operators_or_comp or [])`. -/
def Select.binds (s : Select) : List Value :=
  match s.ooc with
  | none => []
  | some o => o.binds

/-- pg.py `Select.build`. -/
def Select.build (s : Select) : String × List Value := (s.render, s.binds)

/-- pg.py `Select.order_by` (mutates and returns self; modelled as an
update). -/
def Select.orderBy (s : Select) (o : String) : Select := { s with ordBy := some o }

/-- pg.py `Select.limit`. -/
def Select.limit (s : Select) (l : String) : Select := { s with lim := some l }

/-- pg.py `Select.offset`. -/
def Select.offset (s : Select) (o : String) : Select := { s with off := some o }

/-- pg.py `Select.__add__` as used by `args_to_comp` when the Select was
created around an `Operator` (the only shape the engine produces):
`self.operators_or_comp += (item,)` appends to the operator's children.
Other shapes are left unchanged (a bare list or Comparison would raise in
Python and never occurs on engine-built queries). -/
def Select.addOoc (s : Select) (c : Ooc) : Select :=
  match s.ooc with
  | some (.oper k cs) => { s with ooc := some (.oper k (cs ++ [c])) }
  | _ => s

/-- pg.py `Insert`: keyword pairs in declaration order (`sort_keys` is the
test-only global and is `False` at runtime). -/
structure Insert where
  table : String
  pairs : List (String × Value)
  returningSpec : Option String := none
  appendReturning : Option String := none

/-- pg.py `Insert._build_cvp`: double-quoted column list and one `%s` per
value. -/
def Insert.cvp (i : Insert) : String :=
  "(" ++ String.intercalate ", " (i.pairs.map (fun p => "\"" ++ p.1 ++ "\"")) ++ ") VALUES ("
    ++ String.intercalate ", " (i.pairs.map (fun _ => "%s")) ++ ")"

/-- pg.py `Insert.__str__`: `INSERT INTO "table" <cvp>` with the RETURNING
suffix appended to the template, and `DEFAULT VALUES` when no values. -/
def Insert.render (i : Insert) : String :=
  "INSERT INTO \"" ++ i.table ++ "\" "
    ++ (if i.pairs.isEmpty then "DEFAULT VALUES" else i.cvp)
    ++ returningSuffix i.returningSpec

/-- pg.py `Insert.values`: the values in `_ordered_keys` (declaration)
order. -/
def Insert.binds (i : Insert) : List Value := i.pairs.map (·.2)

/-- pg.py `Insert.last_row`, the quoted SQLite RETURNING-emulation
statement: `SELECT {0} FROM "{1}" WHERE "rowid" = last_insert_rowid()`. -/
def Insert.lastRow (spec table : String) : String :=
  "SELECT " ++ spec ++ " FROM \"" ++ table ++ "\" WHERE \"rowid\" = last_insert_rowid()"

/-- The result of `build()`: a single pair, or (when `append_returning` is
set by the SQLite dialect) a list of pairs. -/
inductive Built where
  | one : String × List Value → Built
  | seq : List (String × List Value) → Built

/-- pg.py `Insert.build` (lines 133-141). -/
def Insert.build (i : Insert) : Built :=
  match i.appendReturning with
  | some spec => .seq [(i.render, i.binds), (Insert.lastRow spec i.table, [])]
  | none => .one (i.render, i.binds)

/-- pg.py `Insert.returning`. -/
def Insert.returningSet (i : Insert) (r : String) : Insert := { i with returningSpec := some r }

/-- pg.py `Update`: an `Insert` plus a WHERE tree.  The object-truthiness
test `if self.operators_or_comp:` is satisfied by ANY attached operator,
even an empty `And()`. -/
structure Update where
  table : String
  pairs : List (String × Value)
  returningSpec : Option String := none
  ooc : Option Ooc := none

/-- pg.py `Update._build_cvp`. -/
def Update.cvp (u : Update) : String :=
  String.intercalate ", " (u.pairs.map (fun p => "\"" ++ p.1 ++ "\"=%s"))

/-- pg.py `Update.__str__`: the WHERE clause is appended whenever an
operator object is attached (Python object truthiness), even when that
operator has no children. -/
def Update.render (u : Update) : String :=
  "UPDATE \"" ++ u.table ++ "\" SET " ++ u.cvp
    ++ (match u.ooc with
        | some o => " WHERE " ++ o.render
        | none => "")
    ++ returningSuffix u.returningSpec

/-- pg.py `Update.values`: the SET values, then the predicate's binds. -/
def Update.binds (u : Update) : List Value :=
  u.pairs.map (·.2) ++ (match u.ooc with | some o => o.binds | none => [])

/-- pg.py `Update.build` (inherited from `Insert`, `append_returning` is
never set on the Postgres dialect). -/
def Update.build (u : Update) : String × List Value := (u.render, u.binds)

/-- pg.py `Delete`: `Update` machinery with the `DELETE FROM "table"`
template and no SET clause. -/
structure Delete where
  table : String
  ooc : Option Ooc := none

/-- `Delete.__str__` via `Update.__str__` with template `DELETE FROM
"{table}"`: the WHERE clause is appended whenever an operator object is
attached, even an empty `And()` (which renders as the empty string). -/
def Delete.render (d : Delete) : String :=
  "DELETE FROM \"" ++ d.table ++ "\""
    ++ (match d.ooc with
        | some o => " WHERE " ++ o.render
        | none => "")

/-- `Delete.values` via `Update.values` with no SET values. -/
def Delete.binds (d : Delete) : List Value :=
  match d.ooc with | some o => o.binds | none => []

/-- `Delete.build`. -/
def Delete.build (d : Delete) : String × List Value := (d.render, d.binds)

end Pg

namespace Sq

/-! ## dictorm/query.py and dictorm/sqlite.py — the SQLite-dialect Insert.

In src, `dictorm/sqlite.py` derives its classes from `dictorm/query.py`
(not from `dictorm/pg.py`): `class Insert(PostgresqlInsert)` with
`interpolation_str = '?'` and a `returning` override that records the spec
in `append_returning`.  The inherited `build`/`__str__`/`last_row` come
from query.py, where identifiers are NOT double-quoted and
`last_row = 'SELECT {} FROM {} WHERE rowid = last_insert_rowid()'`. -/

/-- Insertion into a key-sorted pair list (Python `sorted` on dict items;
keys are distinct in a kwargs dict). -/
def insertSorted (p : String × Value) : List (String × Value) → List (String × Value)
  | [] => [p]
  | q :: rest => if p.1 ≤ q.1 then p :: q :: rest else q :: insertSorted p rest

/-- query.py `Insert.sorted_items`: the pairs sorted by key. -/
def sortPairs : List (String × Value) → List (String × Value)
  | [] => []
  | p :: rest => insertSorted p (sortPairs rest)

/-- The SQLite-dialect `Insert` as composed in src: query.py `Insert`
state plus sqlite.py's `append_returning` (set by its `returning`). -/
structure Insert where
  table : String
  pairs : List (String × Value)
  returningSpec : Option String := none
  appendReturning : Option String := none

/-- sqlite.py `Insert.returning`: records the spec in `append_returning`
instead of altering the statement text. -/
def Insert.returningSet (i : Insert) (r : String) : Insert :=
  { i with appendReturning := some r }

/-- query.py `Insert._build_cvp` with sqlite.py's `?` placeholder:
unquoted sorted column names, one `?` per value. -/
def Insert.cvp (i : Insert) : String :=
  "(" ++ String.intercalate ", " ((sortPairs i.pairs).map (·.1)) ++ ") VALUES ("
    ++ String.intercalate ", " (i.pairs.map (fun _ => "?")) ++ ")"

/-- query.py `Insert.__str__`: `INSERT INTO <table> <cvp>` (identifiers
unquoted), `DEFAULT VALUES` when no values; `_returning` stays unset on the
SQLite dialect. -/
def Insert.render (i : Insert) : String :=
  "INSERT INTO " ++ i.table ++ " "
    ++ (if i.pairs.isEmpty then "DEFAULT VALUES" else i.cvp)
    ++ (match i.returningSpec with
        | some r => " RETURNING " ++ r
        | none => "")

/-- query.py `Insert.values`: values in sorted-key order. -/
def Insert.binds (i : Insert) : List Value := (sortPairs i.pairs).map (·.2)

/-- query.py `Insert.last_row`: `SELECT {} FROM {} WHERE rowid =
last_insert_rowid()` — neither the table nor `rowid` is quoted. -/
def Insert.lastRow (spec table : String) : String :=
  "SELECT " ++ spec ++ " FROM " ++ table ++ " WHERE rowid = last_insert_rowid()"

/-- query.py `Insert.build` (lines 113-121): with `append_returning` set, a
list of two (sql, values) pairs — the INSERT, then the `last_row` SELECT
with an empty value list. -/
def Insert.build (i : Insert) : Pg.Built :=
  match i.appendReturning with
  | some spec => .seq [(i.render, i.binds), (Insert.lastRow spec i.table, [])]
  | none => .one (i.render, i.binds)

end Sq

namespace Legacy

/-! ## pgpydict/pgpydict.py — the Legacy Prototype's `PgPyDict`.

`__setitem__` (lines 253-272) runs, in order: return unchanged when the key
is a primary key; when the key is a reference key-name (`_primary_to_ref`),
first store the value (or, for a PgPyDict value, its primary key) into the
matching foreign-key column; when the key is a foreign-key column
(`_ref_info`), first reset the reference key-name to None; finally store
the key itself and flush.  `update` (lines 307-313) stores, via the raw
dict update, every supplied pair whose key is not a primary key, then
flushes. -/

/-- The reference bookkeeping a `PgPyDict` carries: `pks`, and
`ref_info : ref_column → (referenced table's primary key, key_name)`
(the referenced `PgPyTable` object itself plays no role in the mutation
paths modelled here beyond supplying that primary-key name). -/
structure LTable where
  pks : List String
  refInfo : List (String × (String × String))

/-- `_primary_to_ref`: key_name → ref_column, derived from `ref_info`
exactly as in `PgPyDict.__init__`. -/
def LTable.primaryToRef (t : LTable) : List (String × String) :=
  t.refInfo.map (fun p => (p.2.2, p.1))

/-- The result of a mutation: the new contents, whether `flush()` ran, and
the exception if one was raised. -/
structure MutRes where
  data : Row
  flushed : Bool
  err : Option Err

/-- `PgPyDict.__setitem__` (pgpydict.py lines 253-272). -/
def setItemL (t : LTable) (d : Row) (key : String) (v : Value) : MutRes :=
  if key ∈ t.pks then
    ⟨d, false, none⟩
  else
    match t.primaryToRef.lookup key with
    | some refColumn =>
        match v with
        | .vRow fields =>
            -- type(val) == PgPyDict: store the value's own primary key
            match t.refInfo.lookup refColumn with
            | some (primaryKey, _) =>
                match fields.lookup primaryKey with
                | some pkv => ⟨setEntry key v (setEntry refColumn pkv d), true, none⟩
                | none => ⟨d, false, some .keyError⟩
            | none => ⟨d, false, some .keyError⟩
        | _ => ⟨setEntry key v (setEntry refColumn v d), true, none⟩
    | none =>
        match t.refInfo.lookup key with
        | some (_, keyName) =>
            ⟨setEntry key v (setEntry keyName .vNull d), true, none⟩
        | none => ⟨setEntry key v d, true, none⟩

/-- `PgPyDict.update` (pgpydict.py lines 307-313): raw dict update of every
non-primary-key pair, then flush. -/
def updateL (t : LTable) (d : Row) (m : Row) : MutRes :=
  ⟨(m.filter (fun p => p.1 ∉ t.pks)).foldl (fun acc p => setEntry p.1 p.2 acc) d, true, none⟩

/-- A sequence of the two mutation operations named by the claim. -/
inductive LOp where
  | set : String → Value → LOp
  | upd : Row → LOp

/-- Apply one mutation, keeping only the resulting contents. -/
def stepL (t : LTable) (d : Row) : LOp → Row
  | .set k v => (setItemL t d k v).data
  | .upd m => (updateL t d m).data

/-- Apply a sequence of mutations. -/
def runL (t : LTable) (d : Row) : List LOp → Row
  | [] => d
  | op :: rest => runL t (stepL t d op) rest

end Legacy

namespace Engine

/-! ## dictorm/dictorm.py — the core engine. -/

/-- A declared reference (in the source a `Comparison` whose `column2` is a
`Column`): `col1` is the owning table's (foreign-key) column, `tbl2`/`col2`
the referenced table and column; `many`, `substratum`, `aggregate` as in
pg.py. -/
structure Reference where
  col1 : String
  tbl2 : String
  col2 : String
  many : Bool := false
  substratum : Option String := none
  aggregate : Bool := false

/-- The `Table` state the claims depend on: `pks`, `refs`, `fks` (forward
foreign-key column → reference name, maintained by `Table.__setitem__`),
the memoized `updateable_column_names`, and the optional `order_by`. -/
structure TableM where
  name : String
  pks : List String := []
  refs : List (String × Reference) := []
  fks : List (String × String) := []
  updateable : List String := []
  ordBy : Option String := none

/-- Well-formedness maintained by the source (`updateable_column_names`
always includes `refs.keys()`). -/
def TableM.wf (t : TableM) : Prop := ∀ p ∈ t.refs, p.1 ∈ t.updateable

/-- Result of `Dict.__setitem__`: the contents after the call together with
the exception, if one was raised (the foreign-key invalidation happens
BEFORE the updateable-column check, so contents can change even when the
call raises). -/
structure SetRes where
  data : Row
  err : Option Err

/-- `Dict.__setitem__` (dictorm.py lines 243-254): if the key is a forward
foreign-key column, reset the matching reference to None; then validate
against `updateable_column_names` (else `CannotUpdateColumn`); store. -/
def setItemD (t : TableM) (d : Row) (key : String) (v : Value) : SetRes :=
  let d1 := match t.fks.lookup key with
    | some refName => setEntry refName .vNull d
    | none => d
  if key ∈ t.updateable then ⟨setEntry key v d1, none⟩
  else ⟨d1, some .cannotUpdateColumn⟩

/-- The reference-seeding loop of `Table.__call__`: `d[ref_name] = None`
for every declared reference, through `Dict.__setitem__`. -/
def seedRefs (t : TableM) : List (String × Reference) → Row → Except Err Row
  | [], d => .ok d
  | (name, _) :: rest, d =>
      let r := setItemD t d name .vNull
      match r.err with
      | some e => .error e
      | none => seedRefs t rest r.data

/-- `Table.__call__` on a fetched row (`self.table(d)` in
`ResultsGenerator.__next__`): build the Dict, then seed every declared
reference key to None. -/
def wrapRowE (t : TableM) (r : Row) : Except Err Row := seedRefs t t.refs r

/-- Total companion of `wrapRowE` used in statements; on a well-formed
table the two agree (`wrapRowE_eq_ok`). -/
def wrapRow (t : TableM) (r : Row) : Row := ((wrapRowE t r).toOption).getD r

/-- A wrapped row: row contents plus the `_in_db` flag. -/
structure DictR where
  data : Row
  inDb : Bool

/-- `ResultsGenerator` state: the rows its built query returns when
executed on its own dedicated cursor (`queryRows`), the rows remaining on
that cursor (`cursor`), the cache, and the `completed`/`executed`/
`_nocache` flags.  `execCount` counts how many times the built SQL has
been sent to the cursor. -/
structure RGen where
  queryRows : List Row
  cursor : List Row := []
  cache : List DictR := []
  completed : Bool := false
  executed : Bool := false
  execCount : Nat := 0
  nocache : Bool := false

/-- A freshly created generator (`ResultsGenerator.__init__`). -/
def RGen.init (rows : List Row) (nc : Bool := false) : RGen :=
  { queryRows := rows, nocache := nc }

/-- `ResultsGenerator.__execute_once`: on the first call, execute the built
SQL on the generator's own cursor. -/
def RGen.executeOnce (g : RGen) : RGen :=
  if g.executed then g
  else { g with executed := true, cursor := g.queryRows, execCount := g.execCount + 1 }

/-- The outcome of one `__next__` call: a wrapped row, `StopIteration`, or
a propagated exception. -/
inductive NextRes where
  | stop : NextRes
  | item : DictR → NextRes
  | fail : Err → NextRes

/-- `ResultsGenerator.__next__` (dictorm.py lines 299-310): execute once,
fetch one row; an empty fetch sets `completed` and raises StopIteration;
otherwise wrap the row as a Dict marked `_in_db` and append it to the
cache unless `_nocache`. -/
def nextRG (t : TableM) (g : RGen) : NextRes × RGen :=
  let g := g.executeOnce
  match g.cursor with
  | [] => (.stop, { g with completed := true })
  | r :: rest =>
    match wrapRowE t r with
    | .error e => (.fail e, { g with cursor := rest })
    | .ok w =>
      let d : DictR := ⟨w, true⟩
      (.item d, { g with cursor := rest,
                         cache := if g.nocache then g.cache else g.cache ++ [d] })

/-- `k` successive `__next__` calls, collecting each outcome. -/
def nexts (t : TableM) (g : RGen) : Nat → RGen × List NextRes
  | 0 => (g, [])
  | k + 1 =>
    let p := nextRG t g
    let q := nexts t p.2 k
    (q.1, p.1 :: q.2)

/-- The loop body of `list(self)` on a not-yet-completed generator:
repeatedly call `__next__` collecting the returned Dicts until
StopIteration; a propagated exception aborts the loop.  `fuel` bounds the
loop and is always supplied as more than the cursor can yield. -/
def drainAux (t : TableM) : Nat → RGen → RGen × List DictR × Option Err
  | 0, g => (g, [], none)
  | fuel + 1, g =>
    match nextRG t g with
    | (.stop, g1) => (g1, [], none)
    | (.fail e, g1) => (g1, [], some e)
    | (.item d, g1) =>
      let r := drainAux t fuel g1
      (r.1, d :: r.2.1, r.2.2)

/-- `list(self)` via `__iter__` (dictorm.py lines 293-297): replay the
cache when `completed`, otherwise consume `__next__` to exhaustion. -/
def listRG (t : TableM) (g : RGen) : RGen × List DictR × Option Err :=
  if g.completed then (g, g.cache, none)
  else drainAux t (g.queryRows.length + g.cursor.length + 1) g

/-- `Table.get_one` (dictorm.py lines 571-590) applied to the rows its
`get_where` query returns: take one row (StopIteration means no-value),
then check that a second fetch raises StopIteration, else UnexpectedRows. -/
def getOne (t : TableM) (rows : List Row) : Except Err (Option DictR) :=
  match nextRG t (RGen.init rows) with
  | (.stop, _) => .ok none
  | (.fail e, _) => .error e
  | (.item first, g1) =>
    match nextRG t g1 with
    | (.stop, _) => .ok (some first)
    | (.fail e, _) => .error e
    | (.item _, _) => .error .unexpectedRows

/-- The fall-through tail of `ResultsGenerator.__getitem__` (dictorm.py
lines 343-346): `if not self.completed: list(self)` then `return
self.cache[i]` with Python list indexing (negative indices count from the
end; out of range raises IndexError). -/
def materializeIndex (t : TableM) (g : RGen) (i : Int) : Except Err DictR × RGen :=
  let r := listRG t g
  match r.2.2 with
  | some e => (.error e, r.1)
  | none =>
    let g1 := r.1
    let idx : Int := if i < 0 then (g1.cache.length : Int) + i else i
    if h : 0 ≤ idx ∧ idx.toNat < g1.cache.length then
      (.ok (g1.cache.get ⟨idx.toNat, h.2⟩), g1)
    else
      (.error .indexError, g1)

/-- `ResultsGenerator.__getitem__` (dictorm.py lines 327-346) for an
integer index.  For `i ≥ 0`: return the cached row when present; else,
when `i <= len(cache)`, call `__next__` once and return its row —
StopIteration here raises `NoCache` when `_nocache`, else IndexError.
Otherwise (and for negative `i`; a slice falls through this same way)
materialize everything and index into the cache. -/
def getItemRG (t : TableM) (g : RGen) (i : Int) : Except Err DictR × RGen :=
  if 0 ≤ i then
    let n := i.toNat
    match g.cache.get? n with
    | some d => (.ok d, g)
    | none =>
      if n ≤ g.cache.length then
        match nextRG t g with
        | (.item d, g1) => (.ok d, g1)
        | (.stop, g1) =>
            if g1.nocache then (.error .noCache, g1) else (.error .indexError, g1)
        | (.fail e, g1) => (.error e, g1)
      else materializeIndex t g i
  else materializeIndex t g i

end Engine

namespace Engine

/-- Project `i[sub]` out of each resolved row of a many-reference (the
substratum list comprehension in `Dict.__getitem__`); the projection on a
plain column is an ordinary lookup, KeyError when absent. -/
def projectSub (sub : String) : List Row → Except Err (List Value)
  | [] => .ok []
  | r :: rest =>
    match r.lookup sub with
    | none => .error .keyError
    | some v => (projectSub sub rest).map (fun l => v :: l)

/-- Wrap each fetched row of a many-reference through the target table
(`ResultsGenerator.__next__` does this as the generator is consumed). -/
def wrapRows (t : TableM) : List Row → Except Err (List Row)
  | [] => .ok []
  | r :: rest =>
    match wrapRowE t r with
    | .error e => .error e
    | .ok w => (wrapRows t rest).map (fun l => w :: l)

/-- `list(chain(*gen))` for an aggregate reference: concatenate the
element lists of the projected values (each is itself a list when the
substratum names a many-reference chain, which is the only aggregate use). -/
def flattenVals : List Value → Except Err (List Value)
  | [] => .ok []
  | .vList l :: rest => (flattenVals rest).map (fun r => l ++ r)
  | _ :: _ => .error .keyError

/-- `Dict.__getitem__` (dictorm.py lines 208-236).  `reg` is the table
registry (`DictDB`), `env tbl col v` the rows the referenced table's query
`table[col] == v` returns.  The result is the returned value, the contents
after the call, and how many queries the call itself executed (a plain
many-reference returns its `ResultsGenerator` unexecuted: 0 queries; its
value is modelled as the list of wrapped rows it will yield). -/
def getItemD (reg : String → TableM) (env : String → String → Value → List Row)
    (t : TableM) (d : Row) (key : String) : Except Err (Value × Row × Nat) :=
  match t.refs.lookup key with
  | none =>
    match d.lookup key with
    | none => .error .keyError
    | some v => .ok (v, d, 0)
  | some ref =>
    let val := (d.lookup key).getD .vNull
    if val.falsy then
      let t2 := reg ref.tbl2
      match d.lookup ref.col1 with
      | none => .error .keyError
      | some fkv =>
        let rows := env ref.tbl2 ref.col2 fkv
        if ref.many then
          match ref.substratum with
          | none =>
            match wrapRows t2 rows with
            | .error e => .error e
            | .ok ws => .ok (.vList (ws.map .vRow), d, 0)
          | some sub =>
            match wrapRows t2 rows with
            | .error e => .error e
            | .ok ws =>
              match projectSub sub ws with
              | .error e => .error e
              | .ok projs =>
                if ref.aggregate then
                  match flattenVals projs with
                  | .error e => .error e
                  | .ok flat => .ok (.vList flat, d, 1)
                else .ok (.vList projs, d, 1)
        else
          match getOne t2 rows with
          | .error e => .error e
          | .ok none => .ok (.vNull, setEntry key .vNull d, 1)
          | .ok (some dr) =>
            let v := Value.vRow dr.data
            match ref.substratum with
            | some sub =>
              if v.falsy then .ok (v, setEntry key v d, 1)
              else
                match dr.data.lookup sub with
                | none => .error .keyError
                | some pv => .ok (pv, d, 1)
            | none => .ok (v, setEntry key v d, 1)
    else .ok (val, d, 0)

/-- `Dict.pk_and` (dictorm.py lines 179-185): the And of `table[k] == v`
for every item whose key is a primary key, in item order. -/
def pkAnd (t : TableM) (d : Row) : Pg.Ooc :=
  .oper "AND" ((d.filter (fun p => p.1 ∈ t.pks)).map
    (fun p => .comp ⟨t.name, p.1, "=", some p.2⟩))

/-- The persistent state of a `Dict`: contents, `_in_db`, and the
`_old_pk_and` snapshot taken at the end of each flush. -/
structure DState where
  data : Row
  inDb : Bool := false
  oldPkAnd : Option Pg.Ooc := none

/-- `Dict.flush` (dictorm.py lines 111-155) on a table with no declared
references (the leading `if self.table.refs:` child-flush loop is then
skipped and `no_refs()` is the identity); `ret` is the row the RETURNING
clause hands back through `fetchone` (None when the cursor yields none).
Returns the new state and the executed (sql, values). -/
def flushD (t : TableM) (s : DState) (ret : Option Row) :
    Except Err (DState × String × List Value) :=
  let items := (s.data.filter (fun p => p.1 ∉ t.refs.map (·.1))).filter
    (fun p => p.1 ∈ t.updateable)
  let applyRet : Row → Row := fun cur =>
    match ret with
    | some r => if r.isEmpty then cur else mergeRow cur r
    | none => cur
  if !s.inDb then
    let q : Pg.Insert := { table := t.name, pairs := items, returningSpec := some "*" }
    let d2 := applyRet s.data
    .ok ({ data := d2, inDb := true, oldPkAnd := some (pkAnd t d2) },
         (q.render, q.binds))
  else
    if t.pks.isEmpty then .error .noPrimaryKey
    else
      let q : Pg.Update := { table := t.name, pairs := items,
                             returningSpec := some "*",
                             ooc := some (s.oldPkAnd.getD (pkAnd t s.data)) }
      let d2 := applyRet s.data
      .ok ({ data := d2, inDb := true, oldPkAnd := some (pkAnd t d2) },
           (q.render, q.binds))

/-- `Dict.delete` (dictorm.py lines 157-164): build and execute
`Delete(table).where(self._old_pk_and or self.pk_and())`.  No check of
`table.pks` is performed anywhere on this path, so no exception can be
raised locally; with no primary keys the WHERE clause is the empty
conjunction. -/
def deleteD (t : TableM) (s : DState) : String × List Value :=
  (Pg.Delete.build { table := t.name, ooc := some (s.oldPkAnd.getD (pkAnd t s.data)) })

/-- A positional argument of `get_where`/`refine`: an already-built
Comparison/Operator, or a plain value to be paired with a primary key. -/
inductive ArgV where
  | ooc : Pg.Ooc → ArgV
  | plain : Value → ArgV

/-- `Operator.__add__` as used by `args_to_comp` (the accumulator the
engine passes in is always an `And()` operator). -/
def addChild : Pg.Ooc → Pg.Ooc → Pg.Ooc
  | .oper k cs, c => .oper k (cs ++ [c])
  | .comp c0, _ => .comp c0

/-- `args_to_comp` (dictorm.py lines 817-843), generic in the accumulator
(`get_where` passes an `And()`, `ResultsGenerator.refine` passes the copied
`Select`): positional Comparisons/Operators pass through; plain positional
values pair with the table's primary keys in order (NoPrimaryKey when there
are none or too few); each keyword argument appends `table[k] == v` (for
`k` not naming a declared reference). -/
def argsToCompG {α : Type} (add : α → Pg.Ooc → α) (t : TableM) (acc : α)
    (kwargs : List (String × Value)) : List ArgV → Nat → Except Err α
  | [], _ =>
    .ok (kwargs.foldl (fun a p => add a (.comp ⟨t.name, p.1, "=", some p.2⟩)) acc)
  | .ooc o :: rest, u => argsToCompG add t (add acc o) kwargs rest u
  | .plain v :: rest, u =>
    if t.pks.isEmpty then .error .noPrimaryKey
    else
      match t.pks.get? u with
      | none => .error .noPrimaryKey
      | some k =>
        argsToCompG add t (add acc (.comp ⟨t.name, k, "=", some v⟩)) kwargs rest (u + 1)

/-- `args_to_comp` starting from an `And()` operator, as `get_where` calls
it. -/
def argsToComp (t : TableM) (args : List ArgV) (kwargs : List (String × Value)) :
    Except Err Pg.Ooc :=
  argsToCompG addChild t (.oper "AND" []) kwargs args 0

/-- `Table.get_where` (dictorm.py lines 513-569) on the Postgres dialect
(the SQLite-only column pre-validation is skipped): build the And of all
arguments, defaulting the ordering to `order_by` if set, else the first
primary key ascending, else none; returns the built `Select`. -/
def getWhereQ (t : TableM) (args : List ArgV) (kwargs : List (String × Value)) :
    Except Err Pg.Select :=
  match argsToComp t args kwargs with
  | .error e => .error e
  | .ok og =>
    let ob : Option String :=
      match t.ordBy with
      | some o => some o
      | none =>
        match t.pks with
        | [] => none
        | k :: _ => some (k ++ " ASC")
    .ok { table := t.name, ooc := some og, ordBy := ob }

end Engine

namespace Engine

/-! ## The derivation operations of `ResultsGenerator` (dictorm.py lines
348-406).

Each generator holds a reference to a query object; the query objects live
in a store so that the aliasing the Python code must avoid (mutating a
query shared with the original generator) is representable.  `Select.limit`
and friends mutate the query they are called on, so each derivation first
copies the query into a fresh store slot and applies the modification
there. -/

/-- The store of live `Select` objects; a generator refers to its query by
index. -/
abbrev QStore := List Pg.Select

/-- A `ResultsGenerator` whose query is a store reference.  The remaining
fields mirror `RGen`. -/
structure RGenQ where
  qidx : Nat
  cache : List DictR := []
  cursor : List Row := []
  completed : Bool := false
  executed : Bool := false
  execCount : Nat := 0
  nocache : Bool := false

/-- `ResultsGenerator.__init__` over a store slot: fresh cache, flags and
dedicated cursor. -/
def RGenQ.fresh (i : Nat) (nc : Bool := false) : RGenQ := { qidx := i, nocache := nc }

/-- Modelled from the spec: `Select._copy` is invoked by every derivation
method of `ResultsGenerator` (dictorm.py lines 352, 369, 382, 394, 405)
but no pg.py snapshot under src defines it; per the spec each derived
generator wraps "a COPY of the query with the modification applied", so
the copy is a field-for-field duplicate placed in a fresh store slot. -/
def copyAlloc (store : QStore) (q : Pg.Select) : QStore × Nat :=
  (store ++ [q], store.length)

/-- The four derivation methods of the claim. -/
inductive RGOp where
  | refineOp : List ArgV → List (String × Value) → RGOp
  | orderByOp : String → RGOp
  | limitOp : String → RGOp
  | offsetOp : String → RGOp

/-- The modification each method applies to the copied query:
`refine` runs `args_to_comp` over the copy (appending via
`Select.__add__`), the others call the query's own setter. -/
def RGOp.modify (t : TableM) (q : Pg.Select) : RGOp → Except Err Pg.Select
  | .refineOp args kwargs => argsToCompG Pg.Select.addOoc t q kwargs args 0
  | .orderByOp o => .ok (q.orderBy o)
  | .limitOp l => .ok (q.limit l)
  | .offsetOp o => .ok (q.offset o)

/-- `ResultsGenerator.refine/order_by/limit/offset`: copy the query into a
fresh slot, apply the modification there, and build a brand-new
`ResultsGenerator` over it.  The original generator object is not touched
(the method reads `self.query` and `self.table` only). -/
def applyOp (t : TableM) (store : QStore) (g : RGenQ) (op : RGOp) :
    Except Err (QStore × RGenQ) :=
  match store.get? g.qidx with
  | none => .error .keyError
  | some q =>
    match op.modify t q with
    | .error e => .error e
    | .ok q2 =>
      let alloc := copyAlloc store q
      -- the modification mutates the copy in its fresh slot
      .ok (alloc.1.set alloc.2 q2, RGenQ.fresh alloc.2)

/-- `ResultsGenerator.__next__` for a store-indexed generator: execute the
built SQL once on the generator's own cursor (the rows are `env` of the
query currently in the generator's slot), then fetch as in `nextRG`. -/
def nextQ (env : Pg.Select → List Row) (t : TableM) (store : QStore) (g : RGenQ) :
    NextRes × RGenQ :=
  let g := if g.executed then g
    else { g with executed := true, execCount := g.execCount + 1,
                  cursor := match store.get? g.qidx with
                            | some q => env q
                            | none => [] }
  match g.cursor with
  | [] => (.stop, { g with completed := true })
  | r :: rest =>
    match wrapRowE t r with
    | .error e => (.fail e, { g with cursor := rest })
    | .ok w =>
      let d : DictR := ⟨w, true⟩
      (.item d, { g with cursor := rest,
                         cache := if g.nocache then g.cache else g.cache ++ [d] })

/-- `k` successive `__next__` calls on a store-indexed generator.  The
store is read, never written: consuming a generator cannot affect any
query object. -/
def nextsQ (env : Pg.Select → List Row) (t : TableM) (store : QStore) (g : RGenQ) :
    Nat → RGenQ × List NextRes
  | 0 => (g, [])
  | k + 1 =>
    let p := nextQ env t store g
    let q := nextsQ env t store p.2 k
    (q.1, p.1 :: q.2)

/-- Everything a generator will ever yield from its current state: its
cache so far when completed, else cache plus the wrapped remainder of its
query's rows (`__iter__` then `__next__` to exhaustion). -/
def yieldsQ (env : Pg.Select → List Row) (t : TableM) (store : QStore) (g : RGenQ) :
    List DictR :=
  let remaining :=
    if g.completed then []
    else if g.executed then g.cursor
    else match store.get? g.qidx with
         | some q => env q
         | none => []
  g.cache ++ remaining.map (fun r => ⟨wrapRow t r, true⟩)

end Engine

/-! ## Shared helper lemmas. -/

theorem lookup_setEntry (k p : String) (v : Value) (d : Row) :
    (setEntry k v d).lookup p = if p = k then some v else d.lookup p := by
  induction d with
  | nil =>
    by_cases hpk : p = k
    · subst hpk; simp [setEntry, List.lookup]
    · have hb : (p == k) = false := beq_eq_false_iff_ne.mpr hpk
      simp [setEntry, List.lookup, hb, hpk]
  | cons q rest ih =>
    obtain ⟨qk, qv⟩ := q
    by_cases hqk : qk = k
    · subst hqk
      by_cases hpk : p = qk
      · subst hpk; simp [setEntry, List.lookup]
      · have hb : (p == qk) = false := beq_eq_false_iff_ne.mpr hpk
        simp [setEntry, List.lookup, hb, hpk]
    · by_cases hpq : p = qk
      · subst hpq
        have hb : (p == k) = false := beq_eq_false_iff_ne.mpr (fun h => hqk h)
        simp [setEntry, hqk, List.lookup, hb, fun h => hqk h]
      · have hb : (p == qk) = false := beq_eq_false_iff_ne.mpr hpq
        simp [setEntry, hqk, List.lookup, hb, ih]

theorem mem_of_lookup_eq_some {α : Type} {l : List (String × α)} {k : String} {b : α}
    (h : l.lookup k = some b) : (k, b) ∈ l := by
  induction l with
  | nil => simp [List.lookup] at h
  | cons q rest ih =>
    obtain ⟨qk, qv⟩ := q
    by_cases hk : k = qk
    · subst hk
      simp [List.lookup] at h
      simp [h]
    · have hb : (k == qk) = false := beq_eq_false_iff_ne.mpr hk
      simp [List.lookup, hb] at h
      exact List.mem_cons_of_mem _ (ih h)

/-! ## Claim C8 — PostgreSQL `Insert` rendering. -/

/-- The SQL text the claim describes for a PostgreSQL INSERT over the given
column list (stated from the claim's words, to be compared with the
source-translated `Pg.Insert.render`). -/
def insertSqlClaim (table : String) (cols : List String) : String :=
  "INSERT INTO \"" ++ table ++ "\" "
    ++ (if cols.isEmpty then "DEFAULT VALUES"
        else "(" ++ String.intercalate ", " (cols.map (fun c => "\"" ++ c ++ "\""))
          ++ ") VALUES (" ++ String.intercalate ", " (cols.map (fun _ => "%s")) ++ ")")

/-- C8: a PostgreSQL `Insert` with no column=value pairs builds
`INSERT INTO "table" DEFAULT VALUES`; with pairs it builds
`INSERT INTO "table" (<double-quoted cols>) VALUES (<one %s per column>)`
paired with the values in the same column order; in particular
`Insert('some_table', name='Bob').build()` equals
`('INSERT INTO "some_table" ("name") VALUES (%s)', ['Bob'])`. -/
theorem C8_insert_build (table : String) (pairs : List (String × Value)) :
    (Pg.Insert.build { table := table, pairs := pairs }
      = .one (insertSqlClaim table (pairs.map (·.1)), pairs.map (·.2)))
    ∧ Pg.Insert.build { table := "some_table", pairs := [("name", .vStr "Bob")] }
      = .one ("INSERT INTO \"some_table\" (\"name\") VALUES (%s)", [.vStr "Bob"]) := by
  constructor
  · unfold Pg.Insert.build Pg.Insert.render Pg.Insert.cvp Pg.Insert.binds insertSqlClaim
    cases pairs with
    | nil => simp [Pg.returningSuffix]
    | cons p rest =>
      simp [Pg.returningSuffix, Function.comp_def, List.map_map, List.map_const,
        List.map_const', List.length_map]
  · rfl

/-! ## Claim C4 — table qualification of rendered comparisons (code bug).

The pg.py snapshot under src renders a `Comparison` as
`"column"<kind><placeholder>` with no table qualification, while the
repository's own test suite (src/dictorm/test/test_pg.py) asserts
`"table"."column"<kind><placeholder>`, which is what the claim states. -/

/-- C4: evaluating the embedded pg.py code at the claim's own example:
`Select('other_table', Person['name'] == 'Steve').build()` produces
`('SELECT * FROM "other_table" WHERE "name"=%s', ['Steve'])` — the WHERE
clause is NOT table-qualified — and in general `Comparison.__str__` does
not depend on the column's table at all. -/
theorem C4_comparison_unqualified :
    (∀ c : Pg.Comparison, c.render = Pg.Comparison.render ⟨"", c.col, c.kind, c.value⟩)
    ∧ Pg.Select.build
        { table := "other_table",
          ooc := some (.comp ⟨"person", "name", "=", some (.vStr "Steve")⟩) }
      = ("SELECT * FROM \"other_table\" WHERE \"name\"=%s", [.vStr "Steve"])
    ∧ ("SELECT * FROM \"other_table\" WHERE \"name\"=%s" : String)
      ≠ "SELECT * FROM \"other_table\" WHERE \"person\".\"name\"=%s" := by
  refine ⟨fun c => rfl, rfl, by decide⟩

/-! ## Claim C5 — SQLite RETURNING emulation (code bug).

In src, `dictorm/sqlite.py` derives `Insert` from `dictorm/query.py`, whose
`last_row` template quotes neither the table nor `rowid`; the repository's
own test suite (src/dictorm/test/test_sqlite.py line 43) asserts the quoted
form `('SELECT foo FROM "whatever" WHERE "rowid" = last_insert_rowid()',
[])` that only pg.py's `last_row` produces, and that is what the claim
states. -/

/-- C5: evaluating the embedded SQLite-dialect Insert at the test suite's
input: `Insert('whatever').returning('foo').build()` yields two pairs whose
second is the UNQUOTED `('SELECT foo FROM whatever WHERE rowid =
last_insert_rowid()', [])`, differing from the quoted statement the claim
asserts. -/
theorem C5_sqlite_returning_unquoted :
    (Sq.Insert.build (Sq.Insert.returningSet { table := "whatever", pairs := [] } "foo")
      = .seq [("INSERT INTO whatever DEFAULT VALUES", []),
              ("SELECT foo FROM whatever WHERE rowid = last_insert_rowid()", [])])
    ∧ ("SELECT foo FROM whatever WHERE rowid = last_insert_rowid()" : String)
      ≠ "SELECT foo FROM \"whatever\" WHERE \"rowid\" = last_insert_rowid()" := by
  exact ⟨rfl, by decide⟩

/-! ## Claim C10 — Legacy `PgPyDict` primary-key preservation (corrected).

`__setitem__` on a key in the primary-key list does return without storing
or flushing, and `update()` does filter out primary-key entries; but a
`__setitem__` on a reference KEY-NAME stores through its foreign-key
column (`_primary_to_ref`), and when that column is itself a primary key —
exactly the shape a join table with a composite primary key of foreign
keys produces — a primary-key value changes. -/

/-- A join-table-shaped configuration: composite primary key
`(person_id, car_id)`, `car_id` a foreign key exposed under key-name
`car`. -/
def c10table : Legacy.LTable :=
  { pks := ["person_id", "car_id"], refInfo := [("car_id", ("id", "car"))] }

/-- Initial row contents for the C10 counterexample. -/
def c10row : Row := [("person_id", .vInt 1), ("car_id", .vInt 2), ("car", .vNull)]

/-- C10 counterexample: `d['car'] = 5` on the join-table configuration
stores 5 into the primary-key column `car_id` (and flushes), so the
primary-key entries do NOT always equal their original values after a
`__setitem__`. -/
theorem C10_counterexample :
    (Legacy.setItemL c10table c10row "car" (.vInt 5)).data.lookup "car_id"
      = some (.vInt 5)
    ∧ c10row.lookup "car_id" = some (.vInt 2)
    ∧ (Legacy.setItemL c10table c10row "car" (.vInt 5)).flushed = true
    ∧ Value.vInt 5 ≠ Value.vInt 2 := by
  refine ⟨rfl, rfl, rfl, ?_⟩
  intro h
  cases h

/-- Keys absent from a fold of raw stores keep their binding. -/
theorem foldl_setEntry_lookup (p : String) (l : List (String × Value)) (d : Row)
    (h : ∀ q ∈ l, q.1 ≠ p) :
    (l.foldl (fun acc q => setEntry q.1 q.2 acc) d).lookup p = d.lookup p := by
  induction l generalizing d with
  | nil => rfl
  | cons q rest ih =>
    simp only [List.foldl_cons]
    rw [ih _ (fun r hr => h r (List.mem_cons_of_mem _ hr)), lookup_setEntry,
      if_neg (fun hh => (h q (List.mem_cons_self q rest)) hh.symm)]

/-- One claim-scoped mutation preserves every primary-key binding, for
tables where no reference stores through or clears a primary-key column. -/
theorem stepL_lookup (t : Legacy.LTable)
    (h1 : ∀ pr ∈ t.primaryToRef, pr.2 ∉ t.pks)
    (h2 : ∀ ri ∈ t.refInfo, ri.2.2 ∉ t.pks)
    (d : Row) (op : Legacy.LOp) (p : String) (hp : p ∈ t.pks) :
    (Legacy.stepL t d op).lookup p = d.lookup p := by
  cases op with
  | upd m =>
    simp only [Legacy.stepL, Legacy.updateL]
    refine foldl_setEntry_lookup p _ d (fun q hq hqp => ?_)
    exact (of_decide_eq_true (List.mem_filter.mp hq).2) (by rw [hqp]; exact hp)
  | set k v =>
    by_cases hkp : k ∈ t.pks
    · simp [Legacy.stepL, Legacy.setItemL, hkp]
    have hknep : k ≠ p := fun h => hkp (h ▸ hp)
    have hpk2 : p ≠ k := Ne.symm hknep
    simp only [Legacy.stepL, Legacy.setItemL, if_neg hkp]
    cases hpr : List.lookup k t.primaryToRef with
    | some rc =>
      have hrc : rc ∉ t.pks := h1 (k, rc) (mem_of_lookup_eq_some hpr)
      have hprc : p ≠ rc := fun h => hrc (h ▸ hp)
      cases v with
      | vRow fields =>
        cases hri : List.lookup rc t.refInfo with
        | some pr =>
          obtain ⟨pk2, kn⟩ := pr
          cases hf : List.lookup pk2 fields with
          | some pkv => simp [hpr, hri, hf, lookup_setEntry, hpk2, hprc]
          | none => simp [hpr, hri, hf]
        | none => simp [hpr, hri]
      | vNull => simp [hpr, lookup_setEntry, hpk2, hprc]
      | vInt n => simp [hpr, lookup_setEntry, hpk2, hprc]
      | vStr sv => simp [hpr, lookup_setEntry, hpk2, hprc]
      | vList l => simp [hpr, lookup_setEntry, hpk2, hprc]
    | none =>
      cases hri : List.lookup k t.refInfo with
      | some pr =>
        obtain ⟨pk2, kn⟩ := pr
        have hkn : kn ∉ t.pks := h2 (k, (pk2, kn)) (mem_of_lookup_eq_some hri)
        have hknp : p ≠ kn := fun h => hkn (h ▸ hp)
        simp [hpr, hri, lookup_setEntry, hpk2, hknp]
      | none => simp [hpr, hri, lookup_setEntry, hpk2]

/-- C10 amended: on a `PgPyDict` whose references neither store through
nor clear a primary-key column, primary-key entries are preserved by every
sequence of `__setitem__`/`update` calls; moreover `__setitem__` on a
primary-key key stores nothing and does not flush, and `update()` filters
every primary-key entry out of the supplied mapping. -/
theorem C10_pk_preserved (t : Legacy.LTable)
    (h1 : ∀ pr ∈ t.primaryToRef, pr.2 ∉ t.pks)
    (h2 : ∀ ri ∈ t.refInfo, ri.2.2 ∉ t.pks) :
    (∀ d k v, k ∈ t.pks → Legacy.setItemL t d k v = ⟨d, false, none⟩)
    ∧ (∀ d m p, p ∈ t.pks → (Legacy.updateL t d m).data.lookup p = d.lookup p)
    ∧ (∀ ops d p, p ∈ t.pks → (Legacy.runL t d ops).lookup p = d.lookup p) := by
  refine ⟨fun d k v hk => by simp [Legacy.setItemL, hk], ?_, ?_⟩
  · intro d m p hp
    exact stepL_lookup t h1 h2 d (.upd m) p hp
  · intro ops
    induction ops with
    | nil => intro d p hp; rfl
    | cons op rest ih =>
      intro d p hp
      calc (Legacy.runL t (Legacy.stepL t d op) rest).lookup p
          = (Legacy.stepL t d op).lookup p := ih _ p hp
        _ = d.lookup p := stepL_lookup t h1 h2 d op p hp

/-- C10 witness: the amended theorem applied to a table whose only
reference stores through the non-primary column `car_id`. -/
theorem C10_pk_preserved_witness :
    (Legacy.runL { pks := ["id"], refInfo := [("car_id", ("id", "car"))] }
        [("id", .vInt 7)] [.set "car" (.vInt 5), .upd [("id", .vInt 9)]]).lookup "id"
      = some (.vInt 7) :=
  (C10_pk_preserved { pks := ["id"], refInfo := [("car_id", ("id", "car"))] }
    (by decide) (by decide)).2.2
    [.set "car" (.vInt 5), .upd [("id", .vInt 9)]] [("id", .vInt 7)] "id" (by decide)

/-! ## Claim C1 — `get_one` row-count behavior. -/

theorem seedRefs_ok (t : Engine.TableM) (l : List (String × Engine.Reference))
    (hl : ∀ p ∈ l, p.1 ∈ t.updateable) (d : Row) :
    ∃ w, Engine.seedRefs t l d = .ok w := by
  induction l generalizing d with
  | nil => exact ⟨d, rfl⟩
  | cons q rest ih =>
    have hq : q.1 ∈ t.updateable := hl q (List.mem_cons_self q rest)
    obtain ⟨w, hw⟩ := ih (fun p hp => hl p (List.mem_cons_of_mem _ hp))
      (Engine.setItemD t d q.1 .vNull).data
    refine ⟨w, ?_⟩
    simp only [Engine.seedRefs]
    have : (Engine.setItemD t d q.1 .vNull).err = none := by
      simp [Engine.setItemD, hq]
    rw [this]
    exact hw

theorem wrapRowE_eq (t : Engine.TableM) (h : t.wf) (r : Row) :
    Engine.wrapRowE t r = .ok (Engine.wrapRow t r) := by
  obtain ⟨w, hw⟩ := seedRefs_ok t t.refs h r
  simp [Engine.wrapRowE, Engine.wrapRow, hw, Except.toOption]

/-- C1: for any table (with the source's invariant that reference names are
updateable) and the row list its `get_where` query returns, `get_one`
returns no-value for zero rows, the single wrapped `Dict` (marked
persisted) for exactly one row, and raises `UnexpectedRows` for two or
more. -/
theorem C1_get_one (t : Engine.TableM) (h : t.wf) (rows : List Row) :
    Engine.getOne t rows =
      match rows with
      | [] => .ok none
      | [r] => .ok (some ⟨Engine.wrapRow t r, true⟩)
      | _ :: _ :: _ => .error .unexpectedRows := by
  cases rows with
  | nil =>
    simp [Engine.getOne, Engine.nextRG, Engine.RGen.init, Engine.RGen.executeOnce]
  | cons r rest =>
    cases rest with
    | nil =>
      simp [Engine.getOne, Engine.nextRG, Engine.RGen.init, Engine.RGen.executeOnce,
        wrapRowE_eq t h]
    | cons r2 rest2 =>
      simp [Engine.getOne, Engine.nextRG, Engine.RGen.init, Engine.RGen.executeOnce,
        wrapRowE_eq t h]

/-- C1 witness: two rows matching `name='Bob'` make `get_one` raise
`UnexpectedRows`. -/
theorem C1_get_one_witness :
    Engine.getOne { name := "person", updateable := ["id", "name"] }
        [[("id", .vInt 1), ("name", .vStr "Bob")], [("id", .vInt 2), ("name", .vStr "Bob")]]
      = .error .unexpectedRows := by
  have h := C1_get_one { name := "person", updateable := ["id", "name"] }
    (fun p hp => absurd hp (List.not_mem_nil p))
    [[("id", .vInt 1), ("name", .vStr "Bob")], [("id", .vInt 2), ("name", .vStr "Bob")]]
  simpa using h

/-! ## The canonical generator states reached by iterating from a fresh
`ResultsGenerator` (shared by the caching and indexing claims). -/

/-- The state after `k` `__next__` calls on a fresh generator over `rows`. -/
def canonSt (t : Engine.TableM) (rows : List Row) (nc : Bool) (k : Nat) : Engine.RGen :=
  { queryRows := rows,
    cursor := if k = 0 then [] else rows.drop k,
    cache := if nc then [] else (rows.take k).map (fun r => ⟨Engine.wrapRow t r, true⟩),
    completed := decide (rows.length < k),
    executed := decide (0 < k),
    execCount := if 0 < k then 1 else 0,
    nocache := nc }

theorem nexts_succ_back (t : Engine.TableM) (g : Engine.RGen) (k : Nat) :
    Engine.nexts t g (k + 1) =
      ((Engine.nextRG t (Engine.nexts t g k).1).2,
       (Engine.nexts t g k).2 ++ [(Engine.nextRG t (Engine.nexts t g k).1).1]) := by
  induction k generalizing g with
  | zero => simp [Engine.nexts]
  | succ k ih =>
    show (let p := Engine.nextRG t g
          let q := Engine.nexts t p.2 (k + 1)
          (q.1, p.1 :: q.2)) = _
    simp only [ih (Engine.nextRG t g).2]
    simp [Engine.nexts]

theorem nextRG_canon (t : Engine.TableM) (h : t.wf) (rows : List Row) (nc : Bool) (k : Nat) :
    Engine.nextRG t (canonSt t rows nc k) =
      (if hk : k < rows.length
          then .item ⟨Engine.wrapRow t (rows.get ⟨k, hk⟩), true⟩
          else .stop,
       canonSt t rows nc (k + 1)) := by
  have hexec : (canonSt t rows nc k).executeOnce =
      { canonSt t rows nc k with
        cursor := rows.drop k, executed := true, execCount := 1 } := by
    by_cases h0 : 0 < k
    · have : k ≠ 0 := Nat.pos_iff_ne_zero.mp h0
      simp [canonSt, Engine.RGen.executeOnce, h0, this]
    · have : k = 0 := Nat.eq_zero_of_not_pos h0
      subst this
      simp [canonSt, Engine.RGen.executeOnce]
  by_cases hk : k < rows.length
  · have hdrop : rows.drop k = rows.get ⟨k, hk⟩ :: rows.drop (k + 1) :=
      List.drop_eq_getElem_cons hk
    have hcomp : ¬ rows.length < k := Nat.not_lt.mpr (Nat.le_of_lt hk)
    have hcomp1 : ¬ rows.length < k + 1 := Nat.not_lt.mpr (Nat.succ_le_of_lt hk)
    simp only [Engine.nextRG, hexec, hdrop]
    rw [wrapRowE_eq t h]
    simp only [dif_pos hk]
    cases nc with
    | true =>
      simp [canonSt, hcomp, hcomp1, Nat.pos_iff_ne_zero]
    | false =>
      simp [canonSt, hcomp, hcomp1, Nat.pos_iff_ne_zero]
      have hk2 : k < (List.map (fun r =>
          (⟨Engine.wrapRow t r, true⟩ : Engine.DictR)) rows).length := by simpa using hk
      have h3 := List.take_concat_get
        (List.map (fun r => (⟨Engine.wrapRow t r, true⟩ : Engine.DictR)) rows) k hk2
      simpa using h3
  · have hdrop : rows.drop k = [] := List.drop_eq_nil_of_le (Nat.not_lt.mp hk)
    have hcomp1 : rows.length < k + 1 := Nat.lt_succ_of_le (Nat.not_lt.mp hk)
    have htake : rows.take (k + 1) = rows.take k := by
      rw [List.take_of_length_le (Nat.not_lt.mp hk),
        List.take_of_length_le (Nat.le_of_lt (Nat.lt_succ_of_le (Nat.not_lt.mp hk)))]
    simp only [Engine.nextRG, hexec, hdrop]
    simp [canonSt, hcomp1, Nat.pos_iff_ne_zero, dif_neg hk, htake,
      List.drop_eq_nil_of_le (Nat.le_succ_of_le (Nat.not_lt.mp hk))]

theorem nexts_canonical (t : Engine.TableM) (h : t.wf) (rows : List Row) (nc : Bool) (k : Nat) :
    Engine.nexts t (Engine.RGen.init rows nc) k =
      (canonSt t rows nc k,
       (rows.take k).map (fun r => .item ⟨Engine.wrapRow t r, true⟩)
         ++ List.replicate (k - rows.length) .stop) := by
  induction k with
  | zero =>
    simp [Engine.nexts, Engine.RGen.init, canonSt]
  | succ k ih =>
    rw [nexts_succ_back, ih]
    simp only [nextRG_canon t h rows nc k]
    by_cases hk : k < rows.length
    · have h1 : k + 1 - rows.length = 0 := by omega
      have h2 : k - rows.length = 0 := by omega
      simp [dif_pos hk, h1, h2]
      have hk2 : k < (List.map (fun r =>
          Engine.NextRes.item ⟨Engine.wrapRow t r, true⟩) rows).length := by simpa using hk
      have h3 := List.take_concat_get
        (List.map (fun r => Engine.NextRes.item ⟨Engine.wrapRow t r, true⟩) rows) k hk2
      simpa using h3
    · have htake : rows.take (k + 1) = rows.take k := by
        rw [List.take_of_length_le (Nat.not_lt.mp hk),
          List.take_of_length_le (by omega)]
      have hrep : List.replicate (k - rows.length) Engine.NextRes.stop ++ [.stop]
          = List.replicate (k + 1 - rows.length) Engine.NextRes.stop := by
        have : k + 1 - rows.length = (k - rows.length) + 1 := by omega
        rw [this, List.replicate_succ']
      simp [dif_neg hk, htake, ← hrep]

/-! ## Claim C7 — lazy execution, caching and replay of `ResultsGenerator`. -/

/-- C7: on a caching generator, after any number `k` of `__next__` calls:
the built SQL has been executed exactly once if any call was made (and
never otherwise); the cache holds the first `k` rows, each wrapped as a
Dict marked persisted, in order; `completed` is set exactly when a call ran
past the last row; once completed, iteration replays the cached Dicts in
order with no further execution; and the calls returned exactly the
wrapped rows followed by StopIteration. -/
theorem C7_results_caching (t : Engine.TableM) (h : t.wf) (rows : List Row) (k : Nat) :
    ((Engine.nexts t (Engine.RGen.init rows false) k).1.execCount
        = if 0 < k then 1 else 0)
    ∧ (Engine.nexts t (Engine.RGen.init rows false) k).1.cache
        = (rows.take k).map (fun r => ⟨Engine.wrapRow t r, true⟩)
    ∧ (∀ d ∈ (Engine.nexts t (Engine.RGen.init rows false) k).1.cache, d.inDb = true)
    ∧ ((Engine.nexts t (Engine.RGen.init rows false) k).1.completed = true
        ↔ rows.length < k)
    ∧ ((Engine.nexts t (Engine.RGen.init rows false) k).1.completed = true →
        Engine.listRG t (Engine.nexts t (Engine.RGen.init rows false) k).1
          = ((Engine.nexts t (Engine.RGen.init rows false) k).1,
             (Engine.nexts t (Engine.RGen.init rows false) k).1.cache, none))
    ∧ (Engine.nexts t (Engine.RGen.init rows false) k).2
        = (rows.take k).map (fun r => .item ⟨Engine.wrapRow t r, true⟩)
          ++ List.replicate (k - rows.length) .stop := by
  rw [nexts_canonical t h rows false k]
  refine ⟨by simp [canonSt], by simp [canonSt], ?_, by simp [canonSt], ?_, rfl⟩
  · intro d hd
    rw [show (canonSt t rows false k).cache
        = (rows.take k).map (fun r => (⟨Engine.wrapRow t r, true⟩ : Engine.DictR))
      from by simp [canonSt]] at hd
    obtain ⟨r, _, rfl⟩ := List.mem_map.mp hd
    rfl
  · intro hc
    have hc2 : (canonSt t rows false k).completed = true := by simpa using hc
    simp [Engine.listRG, hc2]

/-- C7 witness: iterating three times over a two-row result set executes
once, caches both wrapped rows, and completes. -/
theorem C7_results_caching_witness :
    (Engine.nexts { name := "person", updateable := ["name"] }
        (Engine.RGen.init [[("name", .vStr "Bob")], [("name", .vStr "Aly")]] false) 3).1.execCount
      = 1
    ∧ ((Engine.nexts { name := "person", updateable := ["name"] }
        (Engine.RGen.init [[("name", .vStr "Bob")], [("name", .vStr "Aly")]] false) 3).1.completed
      = true ↔ 2 < 3) := by
  have h := C7_results_caching { name := "person", updateable := ["name"] }
    (fun p hp => absurd hp (List.not_mem_nil p))
    [[("name", .vStr "Bob")], [("name", .vStr "Aly")]] 3
  exact ⟨by simpa using h.1, by simpa using h.2.2.2.1⟩

/-! ## Claim C9 — `ResultsGenerator.__getitem__`. -/

/-- Python list indexing (`self.cache[i]`): negative indices count from the
end, out-of-range raises IndexError. -/
def pyIndex (l : List Engine.DictR) (i : Int) : Except Err Engine.DictR :=
  let idx : Int := if i < 0 then (l.length : Int) + i else i
  if h : 0 ≤ idx ∧ idx.toNat < l.length then .ok (l.get ⟨idx.toNat, h.2⟩)
  else .error .indexError

theorem drainAux_canon (t : Engine.TableM) (h : t.wf) (rows : List Row) (nc : Bool) :
    ∀ fuel k, k ≤ rows.length → rows.length - k < fuel →
    Engine.drainAux t fuel (canonSt t rows nc k) =
      (canonSt t rows nc (rows.length + 1),
       (rows.drop k).map (fun r => ⟨Engine.wrapRow t r, true⟩),
       none) := by
  intro fuel
  induction fuel with
  | zero => intro k _ hf; exact absurd hf (Nat.not_lt_zero _)
  | succ f ih =>
    intro k hk hf
    simp only [Engine.drainAux]
    rw [nextRG_canon t h rows nc k]
    by_cases hklen : k < rows.length
    · simp only [dif_pos hklen]
      rw [ih (k + 1) (Nat.succ_le_of_lt hklen) (by omega)]
      have hdrop : rows.drop k = rows[k] :: rows.drop (k + 1) :=
        List.drop_eq_getElem_cons hklen
      rw [hdrop]
      have hklen2 : k < (List.map (fun r =>
          ({ data := Engine.wrapRow t r, inDb := true } : Engine.DictR)) rows).length := by
        simpa using hklen
      simp [List.drop_eq_getElem_cons hklen2]
    · have hkeq : k = rows.length := Nat.le_antisymm hk (Nat.not_lt.mp hklen)
      subst hkeq
      simp [dif_neg hklen, List.drop_length]

theorem listRG_canon (t : Engine.TableM) (h : t.wf) (rows : List Row) (nc : Bool) (k : Nat) :
    Engine.listRG t (canonSt t rows nc k) =
      if rows.length < k then (canonSt t rows nc k, (canonSt t rows nc k).cache, none)
      else (canonSt t rows nc (rows.length + 1),
            (rows.drop k).map (fun r => ⟨Engine.wrapRow t r, true⟩), none) := by
  by_cases hc : rows.length < k
  · have hcomp : (canonSt t rows nc k).completed = true := by simp [canonSt, hc]
    simp [Engine.listRG, hcomp, hc]
  · have hcomp : (canonSt t rows nc k).completed = false := by simp [canonSt, hc]
    have hk : k ≤ rows.length := Nat.not_lt.mp hc
    rw [if_neg hc]
    simp only [Engine.listRG, hcomp, Bool.false_eq_true, if_false]
    rw [show (canonSt t rows nc k).queryRows = rows from rfl]
    exact drainAux_canon t h rows nc _ k hk (by omega)

theorem materializeIndex_canon (t : Engine.TableM) (h : t.wf) (rows : List Row)
    (nc : Bool) (k : Nat) (i : Int) :
    (Engine.materializeIndex t (canonSt t rows nc k) i).1 =
      pyIndex (if nc then [] else rows.map (fun r => ⟨Engine.wrapRow t r, true⟩)) i := by
  have herr : (Engine.listRG t (canonSt t rows nc k)).2.2 = none := by
    rw [listRG_canon t h rows nc k]
    by_cases hc : rows.length < k <;> simp [hc]
  cases nc with
  | true =>
    have hfin : (Engine.listRG t (canonSt t rows true k)).1.cache = [] := by
      rw [listRG_canon t h rows true k]
      by_cases hc : rows.length < k <;> simp [hc, canonSt]
    have hsel : (if true = true then ([] : List Engine.DictR)
        else rows.map (fun r => ⟨Engine.wrapRow t r, true⟩)) = [] := rfl
    rw [hsel]
    unfold Engine.materializeIndex
    simp only [herr, hfin, pyIndex]
    split <;>
      (split
       · rename_i h2
         exact absurd h2.2 (by simp)
       · rfl)
  | false =>
    have hfin : (Engine.listRG t (canonSt t rows false k)).1.cache
        = rows.map (fun r => ⟨Engine.wrapRow t r, true⟩) := by
      rw [listRG_canon t h rows false k]
      by_cases hc : rows.length < k
      · simp [hc, canonSt, List.map_take, List.take_of_length_le (Nat.le_of_lt hc)]
      · simp [hc, canonSt, List.map_take, List.take_of_length_le (Nat.le_succ rows.length)]
    have hsel : (if false = true then ([] : List Engine.DictR)
        else rows.map (fun r => ⟨Engine.wrapRow t r, true⟩))
        = rows.map (fun r => ⟨Engine.wrapRow t r, true⟩) := rfl
    rw [hsel]
    unfold Engine.materializeIndex
    simp only [herr, hfin, pyIndex]
    split <;>
      (split
       · exact congrArg Except.ok (List.get_of_eq hfin _)
       · rfl)

/-- The outcome of `ResultsGenerator.__getitem__(i)` on a generator that
has already produced `k` rows, stated from the amended claim: a cached
index is returned directly; index equal to the cache length performs one
pull, returning the next unconsumed row, with exhaustion raising `NoCache`
on a no-cache generator and `IndexError` otherwise; any other index (and
any negative index) materializes the remaining rows and then indexes the
final cache Python-style, raising `IndexError` when out of range (for a
no-cache generator the final cache is always empty). -/
def specGetItem (t : Engine.TableM) (rows : List Row) (nc : Bool) (k : Nat) (i : Int) :
    Except Err Engine.DictR :=
  let wrapD : Row → Engine.DictR := fun r => ⟨Engine.wrapRow t r, true⟩
  let finalCache : List Engine.DictR := if nc then [] else rows.map wrapD
  let cacheL : Nat := if nc then 0 else min k rows.length
  let consumed : Nat := min k rows.length
  if 0 ≤ i then
    if i.toNat < cacheL then .ok (wrapD (rows.getD i.toNat []))
    else if i.toNat = cacheL then
      if consumed < rows.length then .ok (wrapD (rows.getD consumed []))
      else if nc then .error .noCache else .error .indexError
    else pyIndex finalCache i
  else pyIndex finalCache i

theorem cache_len_canon (t : Engine.TableM) (rows : List Row) (nc : Bool) (k : Nat) :
    (canonSt t rows nc k).cache.length = if nc then 0 else min k rows.length := by
  cases nc <;> simp [canonSt]

theorem cache_get_canon (t : Engine.TableM) (rows : List Row) (nc : Bool) (k n : Nat) :
    (canonSt t rows nc k).cache.get? n =
      if nc then none
      else if n < min k rows.length
        then some ⟨Engine.wrapRow t (rows.getD n []), true⟩ else none := by
  cases nc with
  | true => simp [canonSt]
  | false =>
    simp only [canonSt, Bool.false_eq_true, if_false]
    rw [List.get?_eq_getElem?, List.getElem?_map, List.getElem?_take]
    by_cases hnk : n < k
    · simp only [if_pos hnk]
      by_cases hnl : n < rows.length
      · rw [List.getElem?_eq_getElem hnl]
        simp [Nat.lt_min.mpr ⟨hnk, hnl⟩, List.getD_eq_getElem?_getD,
          List.getElem?_eq_getElem hnl]
      · rw [List.getElem?_eq_none (Nat.not_lt.mp hnl)]
        simp only [Option.map_none']
        rw [if_neg (fun hc : n < min k rows.length =>
          hnl (lt_of_lt_of_le hc (min_le_right k rows.length)))]
    · simp only [if_neg hnk]
      simp only [Option.map_none']
      rw [if_neg (fun hc : n < min k rows.length =>
        hnk (lt_of_lt_of_le hc (min_le_left k rows.length)))]

/-- C9 amended: full characterization of `__getitem__(i)` on a generator
that has performed `k` next-calls over `rows`, for caching and no-cache
generators (see `specGetItem` for the amended behavior). -/
theorem C9_getitem_amended (t : Engine.TableM) (h : t.wf) (rows : List Row)
    (nc : Bool) (k : Nat) (i : Int) :
    (Engine.getItemRG t (Engine.nexts t (Engine.RGen.init rows nc) k).1 i).1
      = specGetItem t rows nc k i := by
  rw [nexts_canonical t h rows nc k]
  show (Engine.getItemRG t (canonSt t rows nc k) i).1 = _
  unfold Engine.getItemRG specGetItem
  by_cases hi : 0 ≤ i
  · simp only [if_pos hi]
    cases nc with
    | true =>
      have hmiss : (canonSt t rows true k).cache.get? i.toNat = none := by
        rw [cache_get_canon]; rfl
      have hhit : ¬ i.toNat < (if (true : Bool) then 0 else min k rows.length) := by
        simp
      simp only [hmiss, if_neg hhit]
      by_cases heq : i.toNat = 0
      · have hle : i.toNat ≤ (canonSt t rows true k).cache.length := by
          rw [cache_len_canon]; simp [heq]
        simp only [if_pos hle]
        rw [nextRG_canon t h rows true k]
        by_cases hkl : k < rows.length
        · have hcons : min k rows.length = k := Nat.min_eq_left (Nat.le_of_lt hkl)
          simp only [dif_pos hkl]
          simp [heq, hcons, hkl, List.getD_eq_getElem?_getD, List.getElem?_eq_getElem hkl]
        · have hcons : min k rows.length = rows.length := Nat.min_eq_right (Nat.not_lt.mp hkl)
          simp only [dif_neg hkl]
          simp [canonSt, heq, hcons, hkl]
      · have hgt : ¬ i.toNat ≤ (canonSt t rows true k).cache.length := by
          rw [cache_len_canon]; simp; omega
        simp only [if_neg hgt]
        rw [materializeIndex_canon t h rows true k i]
        simp [heq]
    | false =>
      by_cases hhit : i.toNat < min k rows.length
      · have hg : (canonSt t rows false k).cache.get? i.toNat
            = some ⟨Engine.wrapRow t (rows.getD i.toNat []), true⟩ := by
          rw [cache_get_canon]
          simp [hhit]
        simp only [hg]
        simp [hhit]
      · have hmiss : (canonSt t rows false k).cache.get? i.toNat = none := by
          rw [cache_get_canon]
          simp [hhit]
        simp only [hmiss]
        have hhit2 : ¬ i.toNat < (if (false : Bool) then 0 else min k rows.length) := by
          simpa using hhit
        by_cases heq : i.toNat = min k rows.length
        · have hle : i.toNat ≤ (canonSt t rows false k).cache.length := by
            rw [cache_len_canon]; simp [heq]
          simp only [if_pos hle]
          rw [nextRG_canon t h rows false k]
          by_cases hkl : k < rows.length
          · have hcons : min k rows.length = k := Nat.min_eq_left (Nat.le_of_lt hkl)
            simp only [dif_pos hkl]
            simp [heq, hcons, hkl, hhit, List.getD_eq_getElem?_getD,
              List.getElem?_eq_getElem hkl]
          · have hcons : min k rows.length = rows.length := Nat.min_eq_right (Nat.not_lt.mp hkl)
            simp only [dif_neg hkl]
            simp [canonSt, heq, hcons, hkl, hhit]
        · have hgt : ¬ i.toNat ≤ (canonSt t rows false k).cache.length := by
            rw [cache_len_canon]; simp; omega
          simp only [if_neg hgt]
          rw [materializeIndex_canon t h rows false k i]
          simp [hhit, heq]
  · simp only [if_neg hi]
    exact materializeIndex_canon t h rows nc k i

/-- The table used by the C9 counterexample and witness. -/
def c9table : Engine.TableM := { name := "foo", updateable := ["a"] }

/-- Two rows, so index 1 exists in the result set. -/
def c9rows : List Row := [[("a", .vInt 1)], [("a", .vInt 2)]]

/-- C9 counterexample: on a fresh `_nocache` generator over TWO rows,
`[1]` raises IndexError — it neither returns row 1 (which exists and is
never "exhausted before reaching i") nor raises `NoCache`, contradicting
the claim for no-cache generators. -/
theorem C9_counterexample :
    ((Engine.getItemRG c9table (Engine.RGen.init c9rows true) 1).1
        = .error .indexError)
    ∧ c9rows.length = 2
    ∧ (Except.error Err.indexError ≠ (Except.error Err.noCache : Except Err Engine.DictR))
    ∧ ∀ d : Engine.DictR, (Except.error Err.indexError : Except Err Engine.DictR) ≠ .ok d := by
  refine ⟨rfl, rfl, by simp, by simp⟩

/-- C9 witness: the amended characterization applied to the concrete
no-cache generator and index of the counterexample. -/
theorem C9_getitem_amended_witness :
    (Engine.getItemRG c9table
        (Engine.nexts c9table (Engine.RGen.init c9rows true) 0).1 1).1
      = .error .indexError := by
  have h := C9_getitem_amended c9table (fun p hp => absurd hp (List.not_mem_nil p))
    c9rows true 0 1
  rw [h]
  rfl

/-! ## Claim C2 — tables with no primary keys (corrected).

`Dict.flush` does raise `NoPrimaryKey` on its UPDATE path, but
`Dict.delete` (dictorm.py lines 157-164) performs no primary-key check at
all: it builds `DELETE FROM "table" WHERE ` over the empty primary-key
conjunction (an empty `And()` is truthy as a Python object) and executes
it, leaving any failure to the database. -/

/-- The no-primary-key table of the C2 scenario. -/
def c2table : Engine.TableM := { name := "no_pk", updateable := ["foo"] }

/-- The `Dict` state right after the first (INSERT) flush on `c2table`. -/
def c2state : Engine.DState :=
  { data := [("foo", .vStr "bar")], inDb := true, oldPkAnd := some (.oper "AND" []) }

/-- C2 counterexample: on the persisted no-primary-key Dict, a second
`flush()` raises NoPrimaryKey, but `delete()` raises nothing — it returns
the built statement `DELETE FROM "no_pk" WHERE ` with no bind values. -/
theorem C2_counterexample :
    Engine.flushD c2table c2state (some [("foo", .vStr "bar")]) = .error .noPrimaryKey
    ∧ Engine.deleteD c2table c2state = ("DELETE FROM \"no_pk\" WHERE ", []) := by
  exact ⟨rfl, rfl⟩

/-- The state produced by the INSERT path of `flush`. -/
def insertedState (t : Engine.TableM) (s : Engine.DState) (ret : Option Row) :
    Engine.DState :=
  let d2 := match ret with
            | some r => if r.isEmpty then s.data else mergeRow s.data r
            | none => s.data
  { data := d2, inDb := true, oldPkAnd := some (Engine.pkAnd t d2) }

/-- The Insert the INSERT path of `flush` builds. -/
def insertQuery (t : Engine.TableM) (s : Engine.DState) : Pg.Insert :=
  { table := t.name,
    pairs := (s.data.filter (fun p => p.1 ∉ t.refs.map (·.1))).filter
      (fun p => p.1 ∈ t.updateable),
    returningSpec := some "*" }

theorem flushD_insert (t : Engine.TableM) (s : Engine.DState) (ret : Option Row)
    (hdb : s.inDb = false) :
    Engine.flushD t s ret = .ok (insertedState t s ret,
      ((insertQuery t s).render, (insertQuery t s).binds)) := by
  simp [Engine.flushD, hdb, insertedState, insertQuery]

/-- C2 amended: on a table with no primary keys (and no declared
references), the first `flush()` (INSERT path) succeeds and marks the Dict
persisted; a subsequent `flush()` (UPDATE path) raises `NoPrimaryKey`;
`delete()` does NOT raise — it builds a DELETE whose WHERE clause is the
empty primary-key conjunction; and reads remain supported (`get_where`
with keyword filters builds its query without error). -/
theorem C2_no_pk_amended (t : Engine.TableM) (s : Engine.DState) (ret : Option Row)
    (hpks : t.pks = [])
    (hold : s.oldPkAnd = none ∨ s.oldPkAnd = some (.oper "AND" [])) :
    (s.inDb = false → Engine.flushD t s ret = .ok (insertedState t s ret,
      ((insertQuery t s).render, (insertQuery t s).binds))
      ∧ (insertedState t s ret).inDb = true)
    ∧ (s.inDb = true → Engine.flushD t s ret = .error .noPrimaryKey)
    ∧ Engine.deleteD t s = ("DELETE FROM \"" ++ t.name ++ "\"" ++ " WHERE ", [])
    ∧ (∀ kwargs, ∃ q, Engine.getWhereQ t [] kwargs = .ok q) := by
  have hpk : ∀ d : Row, Engine.pkAnd t d = .oper "AND" [] := by
    intro d
    simp [Engine.pkAnd, hpks]
  have hooc : s.oldPkAnd.getD (Engine.pkAnd t s.data) = .oper "AND" [] := by
    cases hold with
    | inl h0 => rw [h0]; simp [hpk]
    | inr h0 => rw [h0]; rfl
  refine ⟨fun hdb => ⟨flushD_insert t s ret hdb, rfl⟩, ?_, ?_, ?_⟩
  · intro hdb
    simp [Engine.flushD, hdb, hpks]
  · simp only [Engine.deleteD, hooc, Pg.Delete.build, Pg.Delete.render, Pg.Delete.binds,
      Pg.Ooc.render, Pg.Ooc.renderList, Pg.Ooc.binds, Pg.Ooc.bindsList]
    rw [show ((" " ++ "AND" ++ " ").intercalate ([] : List String)) = "" from rfl]
    simp
  · intro kwargs
    cases hor : t.ordBy with
    | some o =>
      exact ⟨Pg.Select.mk t.name
          (some (kwargs.foldl (fun a p => Engine.addChild a
            (Pg.Ooc.comp ⟨t.name, p.1, "=", some p.2⟩)) (Pg.Ooc.oper "AND" [])))
          none (some o) none none,
        by simp [Engine.getWhereQ, Engine.argsToComp, Engine.argsToCompG, hpks, hor]⟩
    | none =>
      exact ⟨Pg.Select.mk t.name
          (some (kwargs.foldl (fun a p => Engine.addChild a
            (Pg.Ooc.comp ⟨t.name, p.1, "=", some p.2⟩)) (Pg.Ooc.oper "AND" [])))
          none none none none,
        by simp [Engine.getWhereQ, Engine.argsToComp, Engine.argsToCompG, hpks, hor]⟩

/-- C2 witness: the amended theorem at the concrete no-primary-key table,
before and after the first flush. -/
theorem C2_no_pk_amended_witness :
    Engine.flushD c2table { data := [("foo", .vStr "bar")] } (some [("foo", .vStr "bar")])
      = .ok (insertedState c2table { data := [("foo", .vStr "bar")] }
               (some [("foo", .vStr "bar")]),
             ("INSERT INTO \"no_pk\" (\"foo\") VALUES (%s) RETURNING *", [.vStr "bar"]))
    ∧ Engine.flushD c2table c2state (some [("foo", .vStr "bar")]) = .error .noPrimaryKey
    ∧ Engine.deleteD c2table c2state = ("DELETE FROM \"no_pk\"" ++ " WHERE ", []) := by
  have h1 := C2_no_pk_amended c2table { data := [("foo", .vStr "bar")] }
    (some [("foo", .vStr "bar")]) rfl (Or.inl rfl)
  have h2 := C2_no_pk_amended c2table c2state (some [("foo", .vStr "bar")]) rfl
    (Or.inr rfl)
  refine ⟨?_, h2.2.1 rfl, h2.2.2.1⟩
  have h3 := (h1.1 rfl).1
  rw [h3]
  rfl

/-! ## Claim C3 — one-reference caching and invalidation (corrected).

The resolution cache is keyed on truthiness: a substratum-projected "one"
reference is returned WITHOUT being stored (dictorm.py line 234 returns
before the caching `__setitem__` on line 235), and a no-value resolution is
stored as None, which is falsy and therefore re-resolved on every read.
Caching therefore holds only for a non-substratum reference whose
resolution produced a non-empty row. -/

theorem getOne_single (t : Engine.TableM) (h : t.wf) (r : Row) :
    Engine.getOne t [r] = .ok (some ⟨Engine.wrapRow t r, true⟩) := by
  simp [Engine.getOne, Engine.nextRG, Engine.RGen.init, Engine.RGen.executeOnce,
    wrapRowE_eq t h]

/-- The substratum-projected one-reference of the C3 counterexample:
`Person['manager_name'] = (Person['manager_id'] == Person['id']).substratum('name')`. -/
def c3ref : Engine.Reference :=
  { col1 := "manager_id", tbl2 := "person", col2 := "id",
    many := false, substratum := some "name" }

/-- The person table with that reference declared. -/
def c3table : Engine.TableM :=
  { name := "person",
    pks := ["id"],
    refs := [("manager_name", c3ref)],
    fks := [("manager_id", "manager_name")],
    updateable := ["id", "name", "manager_id", "manager_name"] }

/-- Registry resolving every table name to `c3table`. -/
def c3reg : String → Engine.TableM := fun _ => c3table

/-- The manager row the referenced query returns. -/
def c3env : String → String → Value → List Row :=
  fun _ _ _ => [[("id", .vInt 2), ("name", .vStr "Alice")]]

/-- Bob's row, with the reference slot seeded to None. -/
def c3row : Row := [("id", .vInt 1), ("manager_id", .vInt 2), ("manager_name", .vNull)]

/-- C3 counterexample: reading the declared "one" reference
`manager_name` resolves it with one query but returns the mapping
UNCHANGED — nothing is cached — so the very same (second) read performs a
query again, contradicting "cached in the mapping, so later reads return
the cached value without a new query" for this declared one-reference. -/
theorem C3_counterexample :
    Engine.getItemD c3reg c3env c3table c3row "manager_name"
      = .ok (.vStr "Alice", c3row, 1)
    ∧ (1 : Nat) ≠ 0 := by
  exact ⟨rfl, by simp⟩

/-- C3 amended: for a declared "one" reference WITHOUT a substratum
projection whose resolution returns exactly one row wrapping to a
non-empty Dict: the first read resolves with one query and stores the row
in the mapping; a read of the stored (truthy) value returns it with no
query and no change; assigning the reference's matching foreign-key column
via `__setitem__` resets the stored reference to no-value (so the next
read, its stored value falsy, re-resolves); and no `__setitem__` on any
other key (other than the reference name itself) touches the stored
reference. -/
theorem C3_one_ref_amended
    (reg : String → Engine.TableM) (env : String → String → Value → List Row)
    (t : Engine.TableM) (d : Row) (key : String) (ref : Engine.Reference)
    (href : t.refs.lookup key = some ref)
    (hone : ref.many = false) (hsub : ref.substratum = none)
    (fkv : Value) (hfk : d.lookup ref.col1 = some fkv)
    (r0 : Row)
    (henv : env ref.tbl2 ref.col2 fkv = [r0])
    (hwf2 : (reg ref.tbl2).wf)
    (hne : Engine.wrapRow (reg ref.tbl2) r0 ≠ [])
    (hfalsy : ((d.lookup key).getD .vNull).falsy = true) :
    Engine.getItemD reg env t d key
      = .ok (.vRow (Engine.wrapRow (reg ref.tbl2) r0),
             setEntry key (.vRow (Engine.wrapRow (reg ref.tbl2) r0)) d, 1)
    ∧ Engine.getItemD reg env t
        (setEntry key (.vRow (Engine.wrapRow (reg ref.tbl2) r0)) d) key
      = .ok (.vRow (Engine.wrapRow (reg ref.tbl2) r0),
             setEntry key (.vRow (Engine.wrapRow (reg ref.tbl2) r0)) d, 0)
    ∧ (∀ d2 v fkcol, t.fks.lookup fkcol = some key → fkcol ≠ key →
        fkcol ∈ t.updateable →
        (Engine.setItemD t d2 fkcol v).data.lookup key = some .vNull
        ∧ (Engine.setItemD t d2 fkcol v).err = none)
    ∧ (∀ d2 v key2, key2 ≠ key → t.fks.lookup key2 ≠ some key →
        (Engine.setItemD t d2 key2 v).data.lookup key = d2.lookup key) := by
  refine ⟨?_, ?_, ?_, ?_⟩
  · simp [Engine.getItemD, href, hfalsy, hfk, henv, hone, hsub,
      getOne_single (reg ref.tbl2) hwf2 r0]
  · have hlook : (setEntry key (.vRow (Engine.wrapRow (reg ref.tbl2) r0)) d).lookup key
        = some (.vRow (Engine.wrapRow (reg ref.tbl2) r0)) := by
      rw [lookup_setEntry]
      simp
    have hfalse : (Value.vRow (Engine.wrapRow (reg ref.tbl2) r0)).falsy = false := by
      simp [Value.falsy, hne]
    simp [Engine.getItemD, href, hlook, hfalse]
  · intro d2 v fkcol hmap hneq hupd
    constructor
    · simp only [Engine.setItemD, hmap, if_pos hupd]
      rw [lookup_setEntry, if_neg (fun hh => hneq hh.symm), lookup_setEntry, if_pos rfl]
    · simp [Engine.setItemD, hmap, hupd]
  · intro d2 v key2 hneq hnofk
    simp only [Engine.setItemD]
    cases hk2 : t.fks.lookup key2 with
    | some r2 =>
      have hr2 : r2 ≠ key := fun hh => hnofk (hh ▸ hk2)
      by_cases hupd : key2 ∈ t.updateable
      · simp only [hk2, if_pos hupd]
        rw [lookup_setEntry, if_neg (fun hh => hneq hh.symm),
          lookup_setEntry, if_neg (fun hh => hr2 hh.symm)]
      · simp only [hk2, if_neg hupd]
        rw [lookup_setEntry, if_neg (fun hh => hr2 hh.symm)]
    | none =>
      by_cases hupd : key2 ∈ t.updateable
      · simp only [hk2, if_pos hupd]
        rw [lookup_setEntry, if_neg (fun hh => hneq hh.symm)]
      · simp only [hk2, if_neg hupd]

/-- A plain (no substratum) one-reference for the C3 witness. -/
def c3refB : Engine.Reference := { col1 := "manager_id", tbl2 := "person", col2 := "id" }

/-- The person table with the plain reference declared. -/
def c3tableB : Engine.TableM :=
  { name := "person",
    pks := ["id"],
    refs := [("manager", c3refB)],
    fks := [("manager_id", "manager")],
    updateable := ["id", "name", "manager_id", "manager"] }

/-- Registry for the witness. -/
def c3regB : String → Engine.TableM := fun _ => c3tableB

/-- Environment for the witness: one matching manager row. -/
def c3envB : String → String → Value → List Row :=
  fun _ _ _ => [[("id", .vInt 2), ("name", .vStr "Alice")]]

/-- Bob's row for the witness. -/
def c3rowB : Row := [("id", .vInt 1), ("manager_id", .vInt 2), ("manager", .vNull)]

/-- C3 witness: the amended theorem at the concrete plain one-reference. -/
theorem C3_one_ref_amended_witness :
    Engine.getItemD c3regB c3envB c3tableB c3rowB "manager"
      = .ok (.vRow (Engine.wrapRow c3tableB [("id", .vInt 2), ("name", .vStr "Alice")]),
             setEntry "manager"
               (.vRow (Engine.wrapRow c3tableB [("id", .vInt 2), ("name", .vStr "Alice")]))
               c3rowB, 1) := by
  have h := C3_one_ref_amended c3regB c3envB c3tableB c3rowB "manager" c3refB
    rfl rfl rfl (.vInt 2) rfl [("id", .vInt 2), ("name", .vStr "Alice")] rfl
    (by intro p hp
        have hp2 : p = ("manager", c3refB) := by
          simpa [c3regB, c3tableB] using hp
        rw [hp2]
        decide)
    (by rw [show Engine.wrapRow (c3regB c3refB.tbl2)
            [("id", Value.vInt 2), ("name", Value.vStr "Alice")]
          = [("id", Value.vInt 2), ("name", Value.vStr "Alice"), ("manager", Value.vNull)]
        from rfl]
        simp)
    rfl
  exact h.1

/-! ## Claim C6 — non-destructive derivation of ResultsGenerators. -/

theorem store_frame_get (store : Engine.QStore) (a b : Pg.Select) (j : Nat)
    (h : j < store.length) :
    ((store ++ [a]).set store.length b).get? j = store.get? j := by
  rw [List.get?_eq_getElem?, List.getElem?_set_ne (by omega),
    List.getElem?_append_left h, ← List.get?_eq_getElem?]

theorem store_new_get (store : Engine.QStore) (a b : Pg.Select) :
    ((store ++ [a]).set store.length b).get? store.length = some b := by
  rw [List.get?_eq_getElem?, List.getElem?_set_self (by simp)]

theorem nextQ_qidx (env : Pg.Select → List Row) (t : Engine.TableM)
    (store : Engine.QStore) (g : Engine.RGenQ) :
    (Engine.nextQ env t store g).2.qidx = g.qidx := by
  unfold Engine.nextQ
  by_cases hx : g.executed <;>
    simp only [hx, Bool.false_eq_true, if_true, if_false] <;>
    (split
     · rfl
     · split <;> rfl)

theorem nextQ_congr (env : Pg.Select → List Row) (t : Engine.TableM)
    (store store2 : Engine.QStore) (g : Engine.RGenQ)
    (hq : store2.get? g.qidx = store.get? g.qidx) :
    Engine.nextQ env t store2 g = Engine.nextQ env t store g := by
  unfold Engine.nextQ
  rw [hq]

theorem nextsQ_congr (env : Pg.Select → List Row) (t : Engine.TableM)
    (store store2 : Engine.QStore) :
    ∀ (k : Nat) (g : Engine.RGenQ), store2.get? g.qidx = store.get? g.qidx →
    Engine.nextsQ env t store2 g k = Engine.nextsQ env t store g k := by
  intro k
  induction k with
  | zero => intro g _; rfl
  | succ k ih =>
    intro g hq
    have h1 : Engine.nextQ env t store2 g = Engine.nextQ env t store g :=
      nextQ_congr env t store store2 g hq
    have h2 : Engine.nextsQ env t store2 (Engine.nextQ env t store g).2 k
        = Engine.nextsQ env t store (Engine.nextQ env t store g).2 k :=
      ih _ (by rw [nextQ_qidx]; exact hq)
    show ((Engine.nextsQ env t store2 (Engine.nextQ env t store2 g).2 k).1,
          (Engine.nextQ env t store2 g).1
            :: (Engine.nextsQ env t store2 (Engine.nextQ env t store2 g).2 k).2)
        = Engine.nextsQ env t store g (k + 1)
    rw [h1, h2]
    rfl

theorem yieldsQ_congr (env : Pg.Select → List Row) (t : Engine.TableM)
    (store store2 : Engine.QStore) (g : Engine.RGenQ)
    (hq : store2.get? g.qidx = store.get? g.qidx) :
    Engine.yieldsQ env t store2 g = Engine.yieldsQ env t store g := by
  unfold Engine.yieldsQ
  rw [hq]

/-- C6: each of `refine`/`order_by`/`limit`/`offset` leaves the original
generator's stored query untouched and the original generator object
itself unreferenced; the derived generator is brand new (empty cache,
unexecuted, its own cursor and store slot) over the modified COPY of the
query; and the original's iteration and yields are bit-identical before
and after — so consuming either sequence cannot change what the other
yields (`nextsQ` reads the store immutably and returns only the consumed
generator's own state). -/
theorem C6_derivations (t : Engine.TableM) (env : Pg.Select → List Row)
    (store : Engine.QStore) (g : Engine.RGenQ) (op : Engine.RGOp)
    (store2 : Engine.QStore) (d : Engine.RGenQ)
    (happ : Engine.applyOp t store g op = .ok (store2, d)) :
    store2.get? g.qidx = store.get? g.qidx
    ∧ d = Engine.RGenQ.fresh store.length
    ∧ (d.cache = [] ∧ d.executed = false ∧ d.completed = false ∧ d.execCount = 0)
    ∧ (∃ q q2, store.get? g.qidx = some q ∧ op.modify t q = .ok q2
        ∧ store2.get? d.qidx = some q2)
    ∧ (∀ k, Engine.nextsQ env t store2 g k = Engine.nextsQ env t store g k)
    ∧ Engine.yieldsQ env t store2 g = Engine.yieldsQ env t store g := by
  unfold Engine.applyOp at happ
  cases hq : store.get? g.qidx with
  | none => rw [hq] at happ; cases happ
  | some q =>
    rw [hq] at happ
    cases hmod : Engine.RGOp.modify t q op with
    | error e =>
      simp only [hmod] at happ
      exact Except.noConfusion happ
    | ok q2 =>
      simp only [hmod, Engine.copyAlloc, Except.ok.injEq, Prod.mk.injEq] at happ
      obtain ⟨hst, hd⟩ := happ
      have hlt : g.qidx < store.length := by
        have := List.get?_eq_some.mp hq
        exact this.1
      have hframe : store2.get? g.qidx = store.get? g.qidx := by
        rw [← hst]; exact store_frame_get store q q2 g.qidx hlt
      refine ⟨hframe.trans hq, hd.symm, by rw [← hd]; exact ⟨rfl, rfl, rfl, rfl⟩,
        ⟨q, q2, rfl, hmod, ?_⟩,
        fun k => nextsQ_congr env t store store2 k g hframe,
        yieldsQ_congr env t store store2 g hframe⟩
      rw [← hst, ← hd]
      exact store_new_get store q q2

/-- C6 witness: deriving `limit(2)` from a generator over a one-query
store leaves slot 0 unchanged and allocates the modified copy at slot 1. -/
theorem C6_derivations_witness :
    ([{ table := "person", ooc := some (.oper "AND" []) },
      Pg.Select.limit { table := "person", ooc := some (.oper "AND" []) } "2"]
        : Engine.QStore).get? 0
      = ([{ table := "person", ooc := some (.oper "AND" []) }]
          : Engine.QStore).get? 0 := by
  have h := C6_derivations { name := "person", updateable := ["name"] } (fun _ => [])
    [{ table := "person", ooc := some (.oper "AND" []) }] (Engine.RGenQ.fresh 0)
    (.limitOp "2") _ _ rfl
  exact h.1
